import Mathlib

set_option maxRecDepth 8000

namespace VMwareToKubevirt

/-! Byte-level model of `pkg/vmdk.ExtractVMDKDescriptor`. A file is a list of
bytes (natural numbers below 256). `leUint` models `binary.LittleEndian.Uint32`
and `binary.LittleEndian.Uint64` applied to a slice of the given width; each
byte is reduced modulo 256, which is the identity on real bytes. The 64-bit
header arithmetic (`descriptorOffsetSectors * sectorSize`,
`descriptorSizeSectors * sectorSize`) is modelled with an explicit `% 2 ^ 64`,
matching Go's wrapping `uint64` multiplication. `os.File.ReadAt(buf, off)` is
modelled by its documented semantics: a negative offset (here: a `uint64` that
becomes negative when converted to `int64`, i.e. `2 ^ 63 ≤ off`) is an error,
otherwise it reads `min (buf length) (file length - off)` bytes and reports
`io.EOF` when that is short. -/

def sectorSize : Nat := 512

def vmdkMagicKDMV : Nat := 0x564d444b

def descriptorOffsetInHeaderPos : Nat := 28

def descriptorSizeInHeaderPos : Nat := 36

def minHeaderSizeForDescFields : Nat := descriptorSizeInHeaderPos + 8

def initialReadSize : Nat := 256

def maxDescriptorSizeBytes : Nat := 16 * 1024 * 1024

/-- The bytes of the ASCII signature `"# Disk DescriptorFile"`. -/
def vmdkDescriptorFileSignature : List Nat := "# Disk DescriptorFile".data.map Char.toNat

/-- Little-endian decoding of a byte slice, as `binary.LittleEndian.UintNN`. -/
def leUint (bs : List Nat) : Nat := bs.foldr (fun b acc => b % 256 + 256 * acc) 0

/-- One constructor per distinct error return of `ExtractVMDKDescriptor`
(the open-failure and initial-read-failure paths concern I/O faults outside
the byte-stream model). `negativeReadOffset` is the `ReadAt` error branch,
reachable in the model only through a descriptor offset that is negative as an
`int64`. -/
inductive ExtractErr where
  | emptyFile
  | tooSmallForMagic
  | kdmvHeaderTooSmall
  | zeroDescriptorSize
  | descriptorTooLarge
  | negativeReadOffset
  | shortDescriptorRead
  | unrecognizedFormat
deriving DecidableEq

/-- The `(descriptor, isVMDK, err)` triple returned by `ExtractVMDKDescriptor`;
`descriptor` keeps the raw bytes (Go's `string(bytes)` is the identity on the
underlying bytes). -/
structure ExtractOutcome where
  descriptor : List Nat
  isVMDK : Bool
  err : Option ExtractErr
deriving DecidableEq

/-- Model of `vmdk.ExtractVMDKDescriptor` on the contents of the file. -/
def extractVMDKDescriptor (data : List Nat) : ExtractOutcome :=
  -- initial ReadAt: n bytes into a 256-byte buffer
  let n := min initialReadSize data.length
  if n = 0 then ⟨[], false, some .emptyFile⟩
  else
    let actualInitialBytes := data.take initialReadSize
    if vmdkDescriptorFileSignature.isPrefixOf actualInitialBytes then
      -- descriptor-only file: seek to start, read everything
      ⟨data, true, none⟩
    else if actualInitialBytes.length < 4 then
      ⟨[], false, some .tooSmallForMagic⟩
    else if leUint (actualInitialBytes.take 4) = vmdkMagicKDMV then
      if actualInitialBytes.length < minHeaderSizeForDescFields then
        ⟨[], true, some .kdmvHeaderTooSmall⟩
      else
        let descriptorOffsetSectors :=
          leUint ((actualInitialBytes.drop descriptorOffsetInHeaderPos).take 8)
        let descriptorSizeSectors :=
          leUint ((actualInitialBytes.drop descriptorSizeInHeaderPos).take 8)
        if descriptorSizeSectors = 0 then ⟨[], true, some .zeroDescriptorSize⟩
        else
          let descriptorOffsetBytes := descriptorOffsetSectors * sectorSize % 2 ^ 64
          let descriptorSizeInBytes := descriptorSizeSectors * sectorSize % 2 ^ 64
          if maxDescriptorSizeBytes < descriptorSizeInBytes then
            ⟨[], true, some .descriptorTooLarge⟩
          else if 2 ^ 63 ≤ descriptorOffsetBytes then
            -- int64(descriptorOffsetBytes) < 0: ReadAt fails with a non-EOF error
            ⟨[], true, some .negativeReadOffset⟩
          else
            let bytesRead := min descriptorSizeInBytes (data.length - descriptorOffsetBytes)
            if bytesRead < descriptorSizeInBytes then
              ⟨[], true, some .shortDescriptorRead⟩
            else
              ⟨(data.drop descriptorOffsetBytes).take descriptorSizeInBytes, true, none⟩
    else
      ⟨[], false, some .unrecognizedFormat⟩

/-! Model of `pkg/vmx.ParseVMX`. File contents and paths are Lean strings;
Go's byte-level string operations are modelled at character level (they agree
on ASCII, where all recognized keys live). `strings.ToLower` and
`unicode.IsSpace` are modelled on their ASCII / Latin-1 range. -/

/-- Models `unicode.IsSpace`, restricted to the Latin-1 range. -/
def goIsSpace (c : Char) : Bool :=
  c = ' ' || c = '\t' || c = '\n' || c = '\x0B' || c = '\x0C' || c = '\r' ||
    c = '\u0085' || c = '\u00A0'

/-- Trim characters satisfying `p` from both ends, as `strings.TrimFunc`. -/
def goTrimFunc (s : String) (p : Char → Bool) : String :=
  ⟨((s.data.dropWhile p).reverse.dropWhile p).reverse⟩

/-- Models `strings.TrimSpace`. -/
def goTrimSpace (s : String) : String := goTrimFunc s goIsSpace

/-- Models `strings.Trim s cutset` for a one-character cutset. -/
def goTrimChar (s : String) (c : Char) : String := goTrimFunc s (fun d => d = c)

/-- Models `strings.ToLower` (ASCII range). -/
def goToLower (s : String) : String := ⟨s.data.map Char.toLower⟩

/-- Models `strings.HasPrefix`. -/
def goStartsWith (s t : String) : Bool := t.data.isPrefixOf s.data

/-- Models `strings.TrimSuffix` (suffix test plus removal). -/
def goTrimSuffix (s t : String) : String :=
  if t.data.isSuffixOf s.data then ⟨s.data.take (s.data.length - t.data.length)⟩ else s

/-- Models `strings.SplitN line "=" 2`: `none` when the line has no `'='` (the Go
call then yields a single fragment, which `ParseVMX` skips), otherwise the
parts before and after the first `'='`. -/
def splitAtEq : List Char → Option (List Char × List Char)
  | [] => none
  | c :: rest =>
    if c = '=' then some ([], rest)
    else
      match splitAtEq rest with
      | none => none
      | some (k, v) => some (c :: k, v)

/-- Worker for `splitLines`, accumulating the current fragment reversed. -/
def splitLinesAux : List Char → List Char → List String
  | [], acc => [⟨acc.reverse⟩]
  | c :: rest, acc =>
    if c = '\n' then ⟨acc.reverse⟩ :: splitLinesAux rest []
    else splitLinesAux rest (c :: acc)

/-- Models `strings.Split content "\n"`. -/
def splitLines (content : String) : List String := splitLinesAux content.data []

def decimalDigits (cs : List Char) : Bool := cs.all fun c => '0' ≤ c && c ≤ '9'

def digitsToNat (cs : List Char) : Nat := cs.foldl (fun acc c => acc * 10 + (c.toNat - 48)) 0

/-- Models `strconv.ParseUint value 10 32`: a non-empty all-digit string whose value
fits in 32 bits (no sign allowed); `none` models a non-nil error. -/
def parseUint32 (s : String) : Option Nat :=
  if s.data = [] then none
  else if decimalDigits s.data then
    if digitsToNat s.data < 2 ^ 32 then some (digitsToNat s.data) else none
  else none

/-- Magnitude part of `strconv.ParseInt value 10 64` after the optional sign. -/
def parseInt64Mag (neg : Bool) (cs : List Char) : Option Int :=
  if cs = [] then none
  else if decimalDigits cs then
    if neg then
      if digitsToNat cs ≤ 2 ^ 63 then some (-(digitsToNat cs : Int)) else none
    else
      if digitsToNat cs < 2 ^ 63 then some (digitsToNat cs : Int) else none
  else none

/-- Models `strconv.ParseInt value 10 64`: optional sign, digits, 64-bit range. -/
def parseInt64 (s : String) : Option Int :=
  match s.data with
  | '+' :: rest => parseInt64Mag false rest
  | '-' :: rest => parseInt64Mag true rest
  | cs => parseInt64Mag false cs

/-- Mirror of `vmx.VMXConfig`. `NumVCPUs` is a `uint32` (values kept below `2 ^ 32` by
`parseUint32`), `MemoryMiB` an `int64`. -/
structure VMXConfig where
  DisplayName : String
  NumVCPUs : Nat
  MemoryMiB : Int
deriving DecidableEq

/-- The non-fatal diagnostics `ParseVMX` emits via `log.Printf`, in order. -/
inductive VMXDiag where
  | numvcpusUnparsable (value : String)
  | memsizeUnparsable (value : String)
  | displayNameFallback (name : String)
deriving DecidableEq

/-- The zero-value-plus-defaults record `ParseVMX` starts from. -/
def defaultVMXConfig : VMXConfig := { DisplayName := "", NumVCPUs := 1, MemoryMiB := 1024 }

/-- The per-line key/value extraction of `ParseVMX`'s loop body: trim the
line, skip empties and `#` comments, split at the first `'='`, trim the key
(lowered here, as the `switch strings.ToLower(key)` does) and the value
(whitespace, then enclosing `'"'` characters). -/
def lineKeyValue (rawLine : String) : Option (String × String) :=
  let line := goTrimSpace rawLine
  if line = "" then none
  else if goStartsWith line "#" then none
  else
    match splitAtEq line.data with
    | none => none
    | some (k, v) => some (goToLower (goTrimSpace ⟨k⟩), goTrimChar (goTrimSpace ⟨v⟩) '\"')

/-- One iteration of `ParseVMX`'s line loop on the config-and-diagnostics
state. -/
def processVMXLine (st : VMXConfig × List VMXDiag) (rawLine : String) :
    VMXConfig × List VMXDiag :=
  match lineKeyValue rawLine with
  | none => st
  | some (key, value) =>
    if key = "displayname" then ({ st.1 with DisplayName := value }, st.2)
    else if key = "numvcpus" then
      match parseUint32 value with
      | some cpus => ({ st.1 with NumVCPUs := cpus }, st.2)
      | none => (st.1, st.2 ++ [VMXDiag.numvcpusUnparsable value])
    else if key = "memsize" then
      match parseInt64 value with
      | some mem => ({ st.1 with MemoryMiB := mem }, st.2)
      | none => (st.1, st.2 ++ [VMXDiag.memsizeUnparsable value])
    else st

/-- Models `filepath.Base` (Unix rules: separator `'/'`, empty volume name). -/
def filepathBase (path : String) : String :=
  if path = "" then "."
  else
    let stripped := (path.data.reverse.dropWhile (fun c => c = '/')).reverse
    if stripped = [] then "/"
    else ⟨(stripped.reverse.takeWhile (fun c => c ≠ '/')).reverse⟩

/-- Models `filepath.Ext`: the suffix from the final dot in the final
slash-separated element, empty if there is none. -/
def filepathExt (path : String) : String :=
  let seg := path.data.reverse.takeWhile (fun c => c ≠ '/')
  if seg.any (fun c => c = '.') then ⟨'.' :: (seg.takeWhile (fun c => c ≠ '.')).reverse⟩
  else ""

/-- The fallback display name
`strings.TrimSuffix(filepath.Base(path), filepath.Ext(filepath.Base(path)))`. -/
def vmxFallbackName (vmxPath : String) : String :=
  goTrimSuffix (filepathBase vmxPath) (filepathExt (filepathBase vmxPath))

/-- Model of `vmx.ParseVMX` on the contents of the file (the read itself,
whose failure is `ParseVMX`'s only error return, is outside the model): fold
the line loop over `strings.Split(content, "\n")` from the defaults, then
apply the display-name fallback. -/
def parseVMX (vmxPath content : String) : VMXConfig × List VMXDiag :=
  let r := (splitLines content).foldl processVMXLine (defaultVMXConfig, [])
  if r.1.DisplayName = "" then
    ({ r.1 with DisplayName := vmxFallbackName vmxPath },
      r.2 ++ [VMXDiag.displayNameFallback (vmxFallbackName vmxPath)])
  else r

/-- The value a line assigns to `DisplayName`, if any. -/
def dispEffect (rawLine : String) : Option String :=
  match lineKeyValue rawLine with
  | some (key, value) => if key = "displayname" then some value else none
  | none => none

/-- The value a line successfully assigns to `NumVCPUs`, if any. -/
def numEffect (rawLine : String) : Option Nat :=
  match lineKeyValue rawLine with
  | some (key, value) => if key = "numvcpus" then parseUint32 value else none
  | none => none

/-- The value a line successfully assigns to `MemoryMiB`, if any. -/
def memEffect (rawLine : String) : Option Int :=
  match lineKeyValue rawLine with
  | some (key, value) => if key = "memsize" then parseInt64 value else none
  | none => none

/-- The diagnostic a numeric-key line with an unparsable value produces. -/
def badNumericDiag (rawLine : String) : Option VMXDiag :=
  match lineKeyValue rawLine with
  | some (key, value) =>
    if key = "numvcpus" then
      match parseUint32 value with
      | none => some (VMXDiag.numvcpusUnparsable value)
      | some _ => none
    else if key = "memsize" then
      match parseInt64 value with
      | none => some (VMXDiag.memsizeUnparsable value)
      | some _ => none
    else none
  | none => none

def recognizedVMXKey (key : String) : Bool :=
  key = "displayname" || key = "numvcpus" || key = "memsize"

/-- A line `ParseVMX` skips without any effect: blank, `#` comment, no `'='`,
or an unrecognized key. -/
def skippableVMXLine (rawLine : String) : Bool :=
  let line := goTrimSpace rawLine
  if line = "" then true
  else if goStartsWith line "#" then true
  else
    match splitAtEq line.data with
    | none => true
    | some (k, _) => !recognizedVMXKey (goToLower (goTrimSpace ⟨k⟩))

/-! Model of `kubevirt.CreateKubeVirtVM` (the name-derivation and failure
logic; the fixed parts of the resource are captured as the fields below).
`resource.ParseQuantity` never fails on `fmt.Sprintf("%dMi", m)` for an
`int64` `m`, so it introduces no error path. Go's `len` and slicing on the
name are byte-based; they are modelled at character level (identical on
ASCII). -/

/-- Models `strings.ReplaceAll` for one-character pattern and replacement. -/
def replaceAllChar (s : String) (a b : Char) : String :=
  ⟨s.data.map (fun c => if c = a then b else c)⟩

/-- Models `fmt.Sprintf "%dMi" m`. -/
def formatMemoryQuantity (m : Int) : String := toString m ++ "Mi"

/-- The data `CreateKubeVirtVM` puts into the `VirtualMachine` object. -/
structure KubeVirtVM where
  name : String
  vmNamespace : String
  running : Bool
  cores : Nat
  guestMemory : String
  bootDiskClaimName : String
deriving DecidableEq

/-- Model of `kubevirt.CreateKubeVirtVM`; `none` is the error return. -/
def createKubeVirtVM (vmxConfig : VMXConfig) (pvcName vmNameOverride namespaceArg : String)
    (startVM : Bool) : Option KubeVirtVM :=
  let chosen := if vmNameOverride = "" then vmxConfig.DisplayName else vmNameOverride
  let sanitized := replaceAllChar (replaceAllChar (goToLower chosen) ' ' '-') '_' '-'
  let vmName := if 63 < sanitized.data.length then ⟨sanitized.data.take 63⟩ else sanitized
  if vmName = "" then none
  else
    some
      { name := vmName, vmNamespace := namespaceArg, running := startVM,
        cores := vmxConfig.NumVCPUs, guestMemory := formatMemoryQuantity vmxConfig.MemoryMiB,
        bootDiskClaimName := pvcName }

/-- The name derivation as the spec words it: an explicit non-empty override
wins as the starting name, otherwise the display name; the chosen name is
lowercased, spaces and underscores become hyphens, and the result is
truncated to 63 characters. -/
def claimDerivedName (displayName overrideName : String) : String :=
  let chosen := if overrideName = "" then displayName else overrideName
  let sanitized := replaceAllChar (replaceAllChar (goToLower chosen) ' ' '-') '_' '-'
  if 63 < sanitized.data.length then ⟨sanitized.data.take 63⟩ else sanitized

/-! Concrete byte streams used as counterexamples and witnesses. -/

/-- A 44-byte KDMV header: magic, 24 padding bytes, the 8-byte little-endian
`descriptorOffset` field (byte 28) and `descriptorSize` field (byte 36). -/
def kdmvHeader (offsetField sizeField : List Nat) : List Nat :=
  [0x4b, 0x44, 0x4d, 0x56] ++ List.replicate 24 0 ++ offsetField ++ sizeField

/-- 44-byte KDMV header declaring `descriptorOffset = 2 ^ 54` sectors
(`2 ^ 63` bytes, negative as an `int64`) and `descriptorSize = 1` sector. -/
def c1CexHead : List Nat :=
  kdmvHeader [0, 0, 0, 0, 0, 0, 0x40, 0] [1, 0, 0, 0, 0, 0, 0, 0]

/-- KDMV stream of `2 ^ 63 + 512` bytes with header `c1CexHead`: long enough
to hold the declared descriptor at its exact byte offset `2 ^ 63`. -/
def c1CexData : List Nat := c1CexHead ++ List.replicate (2 ^ 63 + 468) 0

/-- 1024-byte KDMV stream declaring offset 1 sector, size 1 sector; the
descriptor region is the 512 trailing `9` bytes. -/
def c1WitnessData : List Nat :=
  kdmvHeader [1, 0, 0, 0, 0, 0, 0, 0] [1, 0, 0, 0, 0, 0, 0, 0] ++
    List.replicate 468 7 ++ List.replicate 512 9

/-- 44-byte KDMV stream declaring `descriptorSize = 2 ^ 55` sectors, whose
exact byte size `2 ^ 64` wraps to `0` in `uint64` arithmetic. -/
def c2CexData : List Nat :=
  kdmvHeader [0, 0, 0, 0, 0, 0, 0, 0] [0, 0, 0, 0, 0, 0, 0x80, 0]

/-- 44-byte KDMV stream declaring `descriptorSize = 2 ^ 16` sectors
(32 MiB, over the 16 MiB ceiling, with no wrap-around). -/
def c2WitnessData : List Nat :=
  kdmvHeader [0, 0, 0, 0, 0, 0, 0, 0] [0, 0, 1, 0, 0, 0, 0, 0]

/-- 44-byte KDMV stream declaring `descriptorSize = 0` sectors. -/
def c5WitnessData : List Nat :=
  kdmvHeader [2, 0, 0, 0, 0, 0, 0, 0] [0, 0, 0, 0, 0, 0, 0, 0]

/-- A small descriptor-only stream: the signature, a newline, some content. -/
def c3WitnessData : List Nat := vmdkDescriptorFileSignature ++ [10, 118, 109, 10]

/-! Helper lemmas about `List.isPrefixOf` and the branch structure of
`extractVMDKDescriptor`. -/

theorem isPrefixOf_length_le {l₁ l₂ : List Nat} (h : l₁.isPrefixOf l₂ = true) :
    l₁.length ≤ l₂.length := by
  induction l₁ generalizing l₂ with
  | nil => simp
  | cons a as ih =>
    cases l₂ with
    | nil => simp [List.isPrefixOf] at h
    | cons b bs =>
      simp only [List.isPrefixOf, Bool.and_eq_true] at h
      simpa using ih h.2

theorem isPrefixOf_take {l₁ l₂ : List Nat} {n : Nat} (h : l₁.length ≤ n) :
    l₁.isPrefixOf (l₂.take n) = l₁.isPrefixOf l₂ := by
  induction l₁ generalizing l₂ n with
  | nil => simp [List.isPrefixOf]
  | cons a as ih =>
    cases l₂ with
    | nil => simp
    | cons b bs =>
      cases n with
      | zero => simp at h
      | succ m =>
        simp only [List.take_succ_cons, List.isPrefixOf]
        rw [ih (by simpa using h)]

theorem signature_length : vmdkDescriptorFileSignature.length = 21 := by decide

theorem signature_head :
    vmdkDescriptorFileSignature = 35 :: " Disk DescriptorFile".data.map Char.toNat := by decide

/-- A stream whose first four bytes decode to the KDMV magic cannot carry the
descriptor-only signature: its first byte is `75` (`'K'`) modulo 256, not
`35` (`'#'`). -/
theorem signature_not_of_magic {data : List Nat}
    (hmagic : leUint (data.take 4) = vmdkMagicKDMV) :
    vmdkDescriptorFileSignature.isPrefixOf data = false := by
  cases data with
  | nil => simp [leUint, vmdkMagicKDMV] at hmagic
  | cons b rest =>
    rw [signature_head]
    by_cases hb : 35 = b
    · subst hb
      rw [List.take_succ_cons] at hmagic
      simp only [leUint, List.foldr_cons, vmdkMagicKDMV] at hmagic
      omega
    · simp [List.isPrefixOf, hb]

theorem extract_nil : extractVMDKDescriptor [] = ⟨[], false, some .emptyFile⟩ := by decide

/-- The descriptor-only branch: a stream starting with the signature is
returned whole. -/
theorem extract_descriptorOnly {data : List Nat}
    (h : vmdkDescriptorFileSignature.isPrefixOf data = true) :
    extractVMDKDescriptor data = ⟨data, true, none⟩ := by
  have hlen : 21 ≤ data.length := by
    have := isPrefixOf_length_le h
    rwa [signature_length] at this
  have hne : ¬ min initialReadSize data.length = 0 := by
    simp only [initialReadSize]
    omega
  have hsig : vmdkDescriptorFileSignature.isPrefixOf (data.take initialReadSize) = true := by
    rw [isPrefixOf_take (by rw [signature_length]; norm_num [initialReadSize])]
    exact h
  unfold extractVMDKDescriptor
  rw [if_neg hne, if_pos hsig]

/-- The too-small branch: a non-empty stream of fewer than 4 bytes. -/
theorem extract_tooSmall {data : List Nat} (h0 : 0 < data.length) (h4 : data.length < 4) :
    extractVMDKDescriptor data = ⟨[], false, some .tooSmallForMagic⟩ := by
  have hne : ¬ min initialReadSize data.length = 0 := by
    simp only [initialReadSize]
    omega
  have hsig : ¬ vmdkDescriptorFileSignature.isPrefixOf (data.take initialReadSize) = true := by
    intro h
    have := isPrefixOf_length_le h
    rw [signature_length, List.length_take] at this
    omega
  have hlt : (data.take initialReadSize).length < 4 := by
    rw [List.length_take]
    simp only [initialReadSize]
    omega
  unfold extractVMDKDescriptor
  rw [if_neg hne, if_neg hsig, if_pos hlt]

/-- The unrecognized branch: at least 4 bytes, no signature, wrong magic. -/
theorem extract_unrecognized {data : List Nat} (h4 : 4 ≤ data.length)
    (hsig : vmdkDescriptorFileSignature.isPrefixOf data = false)
    (hmagic : leUint (data.take 4) ≠ vmdkMagicKDMV) :
    extractVMDKDescriptor data = ⟨[], false, some .unrecognizedFormat⟩ := by
  have hne : ¬ min initialReadSize data.length = 0 := by
    simp only [initialReadSize]
    omega
  have hsig' : ¬ vmdkDescriptorFileSignature.isPrefixOf (data.take initialReadSize) = true := by
    rw [isPrefixOf_take (by rw [signature_length]; norm_num [initialReadSize]), hsig]
    simp
  have hlt : ¬ (data.take initialReadSize).length < 4 := by
    rw [List.length_take]
    simp only [initialReadSize]
    omega
  have htake : (data.take initialReadSize).take 4 = data.take 4 := by
    rw [List.take_take]
    norm_num [initialReadSize]
  unfold extractVMDKDescriptor
  rw [if_neg hne, if_neg hsig', if_neg hlt, htake, if_neg hmagic]

/-- The truncated-header branch: correct magic but fewer than 44 bytes. -/
theorem extract_kdmvSmall {data : List Nat} (h4 : 4 ≤ data.length) (h44 : data.length < 44)
    (hmagic : leUint (data.take 4) = vmdkMagicKDMV) :
    extractVMDKDescriptor data = ⟨[], true, some .kdmvHeaderTooSmall⟩ := by
  have hne : ¬ min initialReadSize data.length = 0 := by
    simp only [initialReadSize]
    omega
  have hsig' : ¬ vmdkDescriptorFileSignature.isPrefixOf (data.take initialReadSize) = true := by
    rw [isPrefixOf_take (by rw [signature_length]; norm_num [initialReadSize]),
      signature_not_of_magic hmagic]
    simp
  have hlt : ¬ (data.take initialReadSize).length < 4 := by
    rw [List.length_take]
    simp only [initialReadSize]
    omega
  have htake : (data.take initialReadSize).take 4 = data.take 4 := by
    rw [List.take_take]
    norm_num [initialReadSize]
  have hhdr : (data.take initialReadSize).length < minHeaderSizeForDescFields := by
    rw [List.length_take]
    simp only [initialReadSize, minHeaderSizeForDescFields, descriptorSizeInHeaderPos]
    omega
  unfold extractVMDKDescriptor
  rw [if_neg hne, if_neg hsig', if_neg hlt, htake, if_pos hmagic, if_pos hhdr]

/-- The KDMV header path with a full 44-byte header: `extractVMDKDescriptor`
reduces to the size/offset checks and the bounded second read, with the two
header fields read at byte offsets 28 and 36 of the stream. -/
theorem extract_kdmv {data : List Nat} (hlen : 44 ≤ data.length)
    (hmagic : leUint (data.take 4) = vmdkMagicKDMV) :
    extractVMDKDescriptor data =
      if leUint ((data.drop 36).take 8) = 0 then ⟨[], true, some .zeroDescriptorSize⟩
      else if maxDescriptorSizeBytes < leUint ((data.drop 36).take 8) * sectorSize % 2 ^ 64 then
        ⟨[], true, some .descriptorTooLarge⟩
      else if 2 ^ 63 ≤ leUint ((data.drop 28).take 8) * sectorSize % 2 ^ 64 then
        ⟨[], true, some .negativeReadOffset⟩
      else if min (leUint ((data.drop 36).take 8) * sectorSize % 2 ^ 64)
          (data.length - leUint ((data.drop 28).take 8) * sectorSize % 2 ^ 64) <
          leUint ((data.drop 36).take 8) * sectorSize % 2 ^ 64 then
        ⟨[], true, some .shortDescriptorRead⟩
      else
        ⟨(data.drop (leUint ((data.drop 28).take 8) * sectorSize % 2 ^ 64)).take
            (leUint ((data.drop 36).take 8) * sectorSize % 2 ^ 64), true, none⟩ := by
  have hne : ¬ min initialReadSize data.length = 0 := by
    simp only [initialReadSize]
    omega
  have hsig' : ¬ vmdkDescriptorFileSignature.isPrefixOf (data.take initialReadSize) = true := by
    rw [isPrefixOf_take (by rw [signature_length]; norm_num [initialReadSize]),
      signature_not_of_magic hmagic]
    simp
  have hlt : ¬ (data.take initialReadSize).length < 4 := by
    rw [List.length_take]
    simp only [initialReadSize]
    omega
  have htake : (data.take initialReadSize).take 4 = data.take 4 := by
    rw [List.take_take]
    norm_num [initialReadSize]
  have hhdr : ¬ (data.take initialReadSize).length < minHeaderSizeForDescFields := by
    rw [List.length_take]
    simp only [initialReadSize, minHeaderSizeForDescFields, descriptorSizeInHeaderPos]
    omega
  have hoff : (data.take initialReadSize).drop descriptorOffsetInHeaderPos =
      (data.drop descriptorOffsetInHeaderPos).take 228 := by
    rw [List.drop_take]
    norm_num [initialReadSize, descriptorOffsetInHeaderPos]
  have hsize : (data.take initialReadSize).drop descriptorSizeInHeaderPos =
      (data.drop descriptorSizeInHeaderPos).take 220 := by
    rw [List.drop_take]
    norm_num [initialReadSize, descriptorSizeInHeaderPos]
  have hoff8 : ((data.drop descriptorOffsetInHeaderPos).take 228).take 8 =
      (data.drop 28).take 8 := by
    rw [List.take_take]
    norm_num [descriptorOffsetInHeaderPos]
  have hsize8 : ((data.drop descriptorSizeInHeaderPos).take 220).take 8 =
      (data.drop 36).take 8 := by
    rw [List.take_take]
    norm_num [descriptorSizeInHeaderPos]
  unfold extractVMDKDescriptor
  rw [if_neg hne, if_neg hsig', if_neg hlt, htake, if_pos hmagic, if_neg hhdr, hoff, hsize,
    hoff8, hsize8]

/-! Claim theorems C1 to C5, about `extractVMDKDescriptor`. -/

/-- C5: a KDMV stream (correct magic, full 44-byte header) whose header
declares descriptor size 0 sectors always fails with the zero-length
descriptor error and `recognized = true`, regardless of every other header
field and of the rest of the stream. -/
theorem c5_zeroSizeFails {data : List Nat} (hlen : 44 ≤ data.length)
    (hmagic : leUint (data.take 4) = vmdkMagicKDMV)
    (hS : leUint ((data.drop 36).take 8) = 0) :
    extractVMDKDescriptor data = ⟨[], true, some .zeroDescriptorSize⟩ := by
  rw [extract_kdmv hlen hmagic, if_pos hS]

theorem c5_zeroSizeFails_witness :
    44 ≤ c5WitnessData.length ∧
    leUint (c5WitnessData.take 4) = vmdkMagicKDMV ∧
    leUint ((c5WitnessData.drop 36).take 8) = 0 ∧
    extractVMDKDescriptor c5WitnessData = ⟨[], true, some .zeroDescriptorSize⟩ :=
  ⟨by decide, by decide, by decide, c5_zeroSizeFails (by decide) (by decide) (by decide)⟩

/-- C2 counterexample: `c2CexData` has the correct magic and declares
`S = 2 ^ 55` sectors, so in exact arithmetic `S * 512 = 2 ^ 64 > 16 MiB`;
the claim demands a size-exceeds-sanity-limit failure, but the `uint64`
product wraps to `0`, the sanity check passes, and extraction succeeds with
an empty descriptor and no error. -/
theorem c2_counterexample :
    leUint (c2CexData.take 4) = vmdkMagicKDMV ∧
    16 * 1024 * 1024 < leUint ((c2CexData.drop 36).take 8) * 512 ∧
    extractVMDKDescriptor c2CexData = ⟨[], true, none⟩ := by decide

/-- C2 (amended): the size ceiling is enforced on the `uint64` product
`S * 512 mod 2 ^ 64`. A KDMV stream (correct magic, full header) whose header
declares `S` with `S * 512 mod 2 ^ 64 > 16 MiB` always fails with the
size-exceeds-sanity-limit error and `recognized = true`, before the second
bounded read. -/
theorem c2_amended_sizeLimit {data : List Nat} (hlen : 44 ≤ data.length)
    (hmagic : leUint (data.take 4) = vmdkMagicKDMV)
    (hsize : 16 * 1024 * 1024 < leUint ((data.drop 36).take 8) * 512 % 2 ^ 64) :
    extractVMDKDescriptor data = ⟨[], true, some .descriptorTooLarge⟩ := by
  rw [extract_kdmv hlen hmagic]
  simp only [sectorSize, maxDescriptorSizeBytes]
  have hS : ¬ leUint ((data.drop 36).take 8) = 0 := by
    intro h
    rw [h] at hsize
    omega
  rw [if_neg hS, if_pos (by omega)]

theorem c2_amended_sizeLimit_witness :
    44 ≤ c2WitnessData.length ∧
    leUint (c2WitnessData.take 4) = vmdkMagicKDMV ∧
    16 * 1024 * 1024 < leUint ((c2WitnessData.drop 36).take 8) * 512 % 2 ^ 64 ∧
    extractVMDKDescriptor c2WitnessData = ⟨[], true, some .descriptorTooLarge⟩ :=
  ⟨by decide, by decide, by decide,
    c2_amended_sizeLimit (by decide) (by decide) (by decide)⟩

/-- C1 counterexample: `c1CexData` satisfies every hypothesis of the claim in
exact arithmetic — correct magic, `S = 1 > 0`, `S * 512 = 512 ≤ 16 MiB`, and
a stream of exactly `O * 512 + S * 512 = 2 ^ 63 + 512` bytes — yet the
returned outcome is not the declared 512-byte slice at byte offset `2 ^ 63`:
the `uint64` offset is negative as an `int64`, so the second read fails. -/
theorem c1_counterexample :
    leUint (c1CexData.take 4) = vmdkMagicKDMV ∧
    0 < leUint ((c1CexData.drop 36).take 8) ∧
    leUint ((c1CexData.drop 36).take 8) * 512 ≤ 16 * 1024 * 1024 ∧
    leUint ((c1CexData.drop 28).take 8) * 512 + leUint ((c1CexData.drop 36).take 8) * 512 ≤
      c1CexData.length ∧
    extractVMDKDescriptor c1CexData ≠
      ⟨(c1CexData.drop (leUint ((c1CexData.drop 28).take 8) * 512)).take
          (leUint ((c1CexData.drop 36).take 8) * 512), true, none⟩ := by
  have hheadlen : c1CexHead.length = 44 := by decide
  have hdata : c1CexData = c1CexHead ++ List.replicate (2 ^ 63 + 468) 0 := rfl
  have hlen : c1CexData.length = 2 ^ 63 + 512 := by
    rw [hdata, List.length_append, List.length_replicate, hheadlen]
    omega
  have htake4 : c1CexData.take 4 = c1CexHead.take 4 := by
    rw [hdata, List.take_append_of_le_length (by rw [hheadlen]; norm_num)]
  have hdrop28 : (c1CexData.drop 28).take 8 = (c1CexHead.drop 28).take 8 := by
    rw [hdata, List.drop_append_of_le_length (by rw [hheadlen]; norm_num),
      List.take_append_of_le_length (by decide)]
  have hdrop36 : (c1CexData.drop 36).take 8 = (c1CexHead.drop 36).take 8 := by
    rw [hdata, List.drop_append_of_le_length (by rw [hheadlen]; norm_num),
      List.take_append_of_le_length (by decide)]
  have hO : leUint ((c1CexData.drop 28).take 8) = 2 ^ 54 := by
    rw [hdrop28]
    decide
  have hS : leUint ((c1CexData.drop 36).take 8) = 1 := by
    rw [hdrop36]
    decide
  have hmagic : leUint (c1CexData.take 4) = vmdkMagicKDMV := by
    rw [htake4]
    decide
  have h44 : 44 ≤ c1CexData.length := by
    rw [hlen]
    norm_num
  have h1 : ¬ ((1 : Nat) = 0) := one_ne_zero
  have h2 : ¬ (maxDescriptorSizeBytes < 1 * sectorSize % 2 ^ 64) := by
    norm_num [maxDescriptorSizeBytes, sectorSize]
  have h3 : 2 ^ 63 ≤ 2 ^ 54 * sectorSize % 2 ^ 64 := by norm_num [sectorSize]
  refine ⟨hmagic, by rw [hS]; norm_num, by rw [hS]; norm_num, by rw [hO, hS, hlen]; norm_num, ?_⟩
  rw [extract_kdmv h44 hmagic, hO, hS, if_neg h1, if_neg h2, if_pos h3]
  exact fun h => Option.noConfusion (congrArg ExtractOutcome.err h)

/-- C1 (amended): the claim holds whenever the declared byte offset
`O * 512` additionally fits a signed 64-bit file offset (`O * 512 < 2 ^ 63`),
so that the `uint64` offset arithmetic neither wraps nor goes negative; for
larger `O` the second read fails instead (see the counterexample). -/
theorem c1_amended_extractsDeclaredSlice {data : List Nat}
    (hmagic : leUint (data.take 4) = vmdkMagicKDMV)
    (hS : 0 < leUint ((data.drop 36).take 8))
    (hsize : leUint ((data.drop 36).take 8) * 512 ≤ 16 * 1024 * 1024)
    (hlen : leUint ((data.drop 28).take 8) * 512 + leUint ((data.drop 36).take 8) * 512 ≤
      data.length)
    (hoff : leUint ((data.drop 28).take 8) * 512 < 2 ^ 63) :
    extractVMDKDescriptor data =
      ⟨(data.drop (leUint ((data.drop 28).take 8) * 512)).take
          (leUint ((data.drop 36).take 8) * 512), true, none⟩ := by
  have h512 : 512 ≤ leUint ((data.drop 36).take 8) * 512 := by
    have := Nat.mul_le_mul_right 512 hS
    simpa using this
  have h44 : 44 ≤ data.length := by omega
  rw [extract_kdmv h44 hmagic]
  simp only [sectorSize, maxDescriptorSizeBytes]
  have hSmod : leUint ((data.drop 36).take 8) * 512 % 2 ^ 64 =
      leUint ((data.drop 36).take 8) * 512 := Nat.mod_eq_of_lt (by omega)
  have hOmod : leUint ((data.drop 28).take 8) * 512 % 2 ^ 64 =
      leUint ((data.drop 28).take 8) * 512 := Nat.mod_eq_of_lt (by omega)
  rw [hSmod, hOmod, if_neg (by omega), if_neg (by omega), if_neg (by omega),
    if_neg (by omega)]

theorem c1_amended_extractsDeclaredSlice_witness :
    leUint (c1WitnessData.take 4) = vmdkMagicKDMV ∧
    0 < leUint ((c1WitnessData.drop 36).take 8) ∧
    leUint ((c1WitnessData.drop 36).take 8) * 512 ≤ 16 * 1024 * 1024 ∧
    leUint ((c1WitnessData.drop 28).take 8) * 512 +
      leUint ((c1WitnessData.drop 36).take 8) * 512 ≤ c1WitnessData.length ∧
    leUint ((c1WitnessData.drop 28).take 8) * 512 < 2 ^ 63 ∧
    extractVMDKDescriptor c1WitnessData =
      ⟨(c1WitnessData.drop (leUint ((c1WitnessData.drop 28).take 8) * 512)).take
          (leUint ((c1WitnessData.drop 36).take 8) * 512), true, none⟩ :=
  ⟨by decide, by decide, by decide, by decide, by decide,
    c1_amended_extractsDeclaredSlice (by decide) (by decide) (by decide) (by decide)
      (by decide)⟩

/-- C3: a stream that begins with the ASCII signature
`"# Disk DescriptorFile"` is returned whole, unmodified, with
`recognized = true` and no error. -/
theorem c3_descriptorOnlyWhole {data : List Nat}
    (h : vmdkDescriptorFileSignature.isPrefixOf data = true) :
    extractVMDKDescriptor data = ⟨data, true, none⟩ := extract_descriptorOnly h

theorem c3_descriptorOnlyWhole_witness :
    vmdkDescriptorFileSignature.isPrefixOf c3WitnessData = true ∧
    extractVMDKDescriptor c3WitnessData = ⟨c3WitnessData, true, none⟩ :=
  ⟨by decide, c3_descriptorOnlyWhole (by decide)⟩

/-- C4: for every stream, the returned `recognized` boolean is true iff the
bytes matched one of the two container variants — the descriptor-only
signature, or at least 4 bytes whose little-endian decoding is the KDMV
magic — independent of whether extraction succeeded; and a stream shorter
than 4 bytes, or matching neither variant, yields `recognized = false`
together with an error. -/
theorem c4_recognizedIff (data : List Nat) :
    ((extractVMDKDescriptor data).isVMDK = true ↔
      (vmdkDescriptorFileSignature.isPrefixOf data = true ∨
        (4 ≤ data.length ∧ leUint (data.take 4) = vmdkMagicKDMV))) ∧
    (data.length < 4 →
      (extractVMDKDescriptor data).isVMDK = false ∧
        (extractVMDKDescriptor data).err.isSome = true) ∧
    (vmdkDescriptorFileSignature.isPrefixOf data = false →
      leUint (data.take 4) ≠ vmdkMagicKDMV →
      (extractVMDKDescriptor data).isVMDK = false ∧
        (extractVMDKDescriptor data).err.isSome = true) := by
  by_cases hsig : vmdkDescriptorFileSignature.isPrefixOf data = true
  · have he := extract_descriptorOnly hsig
    have hl : 21 ≤ data.length := by
      have := isPrefixOf_length_le hsig
      rwa [signature_length] at this
    refine ⟨?_, fun h4 => absurd h4 (by omega), fun hf => ?_⟩
    · rw [he]
      simp [hsig]
    · rw [hsig] at hf
      cases hf
  · have hsigF : vmdkDescriptorFileSignature.isPrefixOf data = false := by
      rw [Bool.not_eq_true] at hsig
      exact hsig
    rcases Nat.lt_or_ge data.length 4 with h4 | h4
    · rcases Nat.eq_zero_or_pos data.length with h0 | h0
      · have hnil : data = [] := List.eq_nil_of_length_eq_zero h0
        subst hnil
        exact ⟨by rw [extract_nil]; simp; decide, by simp [extract_nil],
          by simp [extract_nil]⟩
      · have he := extract_tooSmall h0 h4
        refine ⟨?_, fun _ => ?_, fun _ _ => ?_⟩
        · rw [he]
          constructor
          · intro h
            cases h
          · rintro (h | ⟨h, _⟩)
            · rw [hsigF] at h
              cases h
            · omega
        · rw [he]
          exact ⟨rfl, rfl⟩
        · rw [he]
          exact ⟨rfl, rfl⟩
    · by_cases hmagic : leUint (data.take 4) = vmdkMagicKDMV
      · rcases Nat.lt_or_ge data.length 44 with h44 | h44
        · have he := extract_kdmvSmall h4 h44 hmagic
          refine ⟨?_, fun h => absurd h (by omega), fun _ hm => absurd hmagic hm⟩
          rw [he]
          exact iff_of_true rfl (Or.inr ⟨h4, hmagic⟩)
        · have he := extract_kdmv h44 hmagic
          refine ⟨?_, fun h => absurd h (by omega), fun _ hm => absurd hmagic hm⟩
          rw [he]
          refine iff_of_true ?_ (Or.inr ⟨h4, hmagic⟩)
          split_ifs <;> rfl
      · have he := extract_unrecognized h4 hsigF hmagic
        refine ⟨?_, fun h => absurd h (by omega), fun _ _ => ?_⟩
        · rw [he]
          constructor
          · intro h
            cases h
          · rintro (h | ⟨_, hm⟩)
            · rw [hsigF] at h
              cases h
            · exact absurd hm hmagic
        · rw [he]
          exact ⟨rfl, rfl⟩

theorem c4_recognizedIff_witness :
    ((extractVMDKDescriptor [1, 2, 3]).isVMDK = false ∧
      (extractVMDKDescriptor [1, 2, 3]).err.isSome = true) ∧
    ((extractVMDKDescriptor [1, 2, 3]).isVMDK = true ↔
      (vmdkDescriptorFileSignature.isPrefixOf [1, 2, 3] = true ∨
        (4 ≤ ([1, 2, 3] : List Nat).length ∧
          leUint (([1, 2, 3] : List Nat).take 4) = vmdkMagicKDMV))) :=
  ⟨(c4_recognizedIff [1, 2, 3]).2.1 (by decide), (c4_recognizedIff [1, 2, 3]).1⟩

/-! Helper lemmas for `parseVMX`: each loop iteration changes each field to
the line's effect on it (or keeps it), so a left fold gives
last-successful-occurrence-wins semantics. -/

theorem getLast?_getD_cons {α : Type _} (l : List α) :
    ∀ a d : α, ((a :: l).getLast?).getD d = (l.getLast?).getD a := by
  induction l with
  | nil => intro a d; rfl
  | cons b bs ih =>
    intro a d
    rw [List.getLast?_cons_cons, ih b d, ih b a]

theorem processVMXLine_DisplayName (st : VMXConfig × List VMXDiag) (rawLine : String) :
    (processVMXLine st rawLine).1.DisplayName = (dispEffect rawLine).getD st.1.DisplayName := by
  unfold processVMXLine dispEffect
  cases lineKeyValue rawLine with
  | none => rfl
  | some kv =>
    obtain ⟨key, value⟩ := kv
    by_cases h1 : key = "displayname"
    · simp [h1]
    · by_cases h2 : key = "numvcpus"
      · cases hp : parseUint32 value <;> simp [h1, h2, hp]
      · by_cases h3 : key = "memsize"
        · cases hp : parseInt64 value <;> simp [h1, h2, h3, hp]
        · simp [h1, h2, h3]

theorem processVMXLine_NumVCPUi (st : VMXConfig × List VMXDiag) (rawLine : String) :
    (processVMXLine st rawLine).1.NumVCPUs = (numEffect rawLine).getD st.1.NumVCPUs := by
  unfold processVMXLine numEffect
  cases lineKeyValue rawLine with
  | none => rfl
  | some kv =>
    obtain ⟨key, value⟩ := kv
    by_cases h1 : key = "displayname"
    · simp [h1]
    · by_cases h2 : key = "numvcpus"
      · cases hp : parseUint32 value <;> simp [h1, h2, hp]
      · by_cases h3 : key = "memsize"
        · cases hp : parseInt64 value <;> simp [h1, h2, h3, hp]
        · simp [h1, h2, h3]

theorem processVMXLine_MemoryMiB (st : VMXConfig × List VMXDiag) (rawLine : String) :
    (processVMXLine st rawLine).1.MemoryMiB = (memEffect rawLine).getD st.1.MemoryMiB := by
  unfold processVMXLine memEffect
  cases lineKeyValue rawLine with
  | none => rfl
  | some kv =>
    obtain ⟨key, value⟩ := kv
    by_cases h1 : key = "displayname"
    · simp [h1]
    · by_cases h2 : key = "numvcpus"
      · cases hp : parseUint32 value <;> simp [h1, h2, hp]
      · by_cases h3 : key = "memsize"
        · cases hp : parseInt64 value <;> simp [h1, h2, h3, hp]
        · simp [h1, h2, h3]

theorem foldl_DisplayName (lines : List String) (st : VMXConfig × List VMXDiag) :
    ((lines.foldl processVMXLine st).1).DisplayName =
      ((lines.filterMap dispEffect).getLast?).getD st.1.DisplayName := by
  induction lines generalizing st with
  | nil => rfl
  | cons l ls ih =>
    rw [List.foldl_cons, ih, List.filterMap_cons]
    cases hl : dispEffect l with
    | none =>
      rw [processVMXLine_DisplayName st l, hl]
      rfl
    | some v =>
      rw [processVMXLine_DisplayName st l, hl, getLast?_getD_cons]
      rfl

theorem foldl_NumVCPUi (lines : List String) (st : VMXConfig × List VMXDiag) :
    ((lines.foldl processVMXLine st).1).NumVCPUs =
      ((lines.filterMap numEffect).getLast?).getD st.1.NumVCPUs := by
  induction lines generalizing st with
  | nil => rfl
  | cons l ls ih =>
    rw [List.foldl_cons, ih, List.filterMap_cons]
    cases hl : numEffect l with
    | none =>
      rw [processVMXLine_NumVCPUi st l, hl]
      rfl
    | some v =>
      rw [processVMXLine_NumVCPUi st l, hl, getLast?_getD_cons]
      rfl

theorem foldl_MemoryMiB (lines : List String) (st : VMXConfig × List VMXDiag) :
    ((lines.foldl processVMXLine st).1).MemoryMiB =
      ((lines.filterMap memEffect).getLast?).getD st.1.MemoryMiB := by
  induction lines generalizing st with
  | nil => rfl
  | cons l ls ih =>
    rw [List.foldl_cons, ih, List.filterMap_cons]
    cases hl : memEffect l with
    | none =>
      rw [processVMXLine_MemoryMiB st l, hl]
      rfl
    | some v =>
      rw [processVMXLine_MemoryMiB st l, hl, getLast?_getD_cons]
      rfl

theorem parseVMX_NumVCPUi (vmxPath content : String) :
    (parseVMX vmxPath content).1.NumVCPUs =
      (((splitLines content).filterMap numEffect).getLast?).getD 1 := by
  unfold parseVMX
  dsimp only
  have h := foldl_NumVCPUi (splitLines content) (defaultVMXConfig, [])
  split_ifs with hd
  · exact h
  · exact h

theorem parseVMX_MemoryMiB (vmxPath content : String) :
    (parseVMX vmxPath content).1.MemoryMiB =
      (((splitLines content).filterMap memEffect).getLast?).getD 1024 := by
  unfold parseVMX
  dsimp only
  have h := foldl_MemoryMiB (splitLines content) (defaultVMXConfig, [])
  split_ifs with hd
  · exact h
  · exact h

theorem parseVMX_DisplayName_of_empty (vmxPath content : String)
    (h0 : (((splitLines content).filterMap dispEffect).getLast?).getD "" = "") :
    (parseVMX vmxPath content).1.DisplayName = vmxFallbackName vmxPath ∧
    VMXDiag.displayNameFallback (vmxFallbackName vmxPath) ∈ (parseVMX vmxPath content).2 := by
  unfold parseVMX
  have h := foldl_DisplayName (splitLines content) (defaultVMXConfig, [])
  have hc : ((splitLines content).foldl processVMXLine (defaultVMXConfig, [])).1.DisplayName =
      "" := by
    rw [h]
    exact h0
  rw [if_pos hc]
  exact ⟨rfl, List.mem_append_right _ (List.mem_singleton.mpr rfl)⟩

theorem parseVMX_DisplayName_of_set (vmxPath content : String) (v : String) (hv : v ≠ "")
    (h0 : ((splitLines content).filterMap dispEffect).getLast? = some v) :
    (parseVMX vmxPath content).1.DisplayName = v := by
  unfold parseVMX
  have h := foldl_DisplayName (splitLines content) (defaultVMXConfig, [])
  have hc : ((splitLines content).foldl processVMXLine (defaultVMXConfig, [])).1.DisplayName =
      v := by
    rw [h, h0]
    rfl
  rw [if_neg (by rw [hc]; exact hv)]
  exact hc

/-! Claim theorems C7 to C10, about `parseVMX` and `processVMXLine`. -/

/-- C7: when no line carries the (case-insensitive) key `displayname` with a
non-empty value, `parseVMX` returns the path's base name with its extension
stripped as the display name, and emits the non-fatal fallback diagnostic. -/
theorem c7_fallbackDisplayName (vmxPath content : String)
    (h : ∀ l ∈ splitLines content, dispEffect l = none ∨ dispEffect l = some "") :
    (parseVMX vmxPath content).1.DisplayName = vmxFallbackName vmxPath ∧
    VMXDiag.displayNameFallback (vmxFallbackName vmxPath) ∈ (parseVMX vmxPath content).2 := by
  apply parseVMX_DisplayName_of_empty
  cases hg : ((splitLines content).filterMap dispEffect).getLast? with
  | none => rfl
  | some v =>
    show v = ""
    have hv : v ∈ (splitLines content).filterMap dispEffect := List.mem_of_mem_getLast? hg
    rw [List.mem_filterMap] at hv
    obtain ⟨l, hl, he⟩ := hv
    rcases h l hl with h' | h'
    · rw [h'] at he
      cases he
    · rw [h'] at he
      injection he with he'
      exact he'.symm

theorem c7_fallbackDisplayName_witness :
    (∀ l ∈ splitLines "numvcpus=2\n# a comment", dispEffect l = none ∨ dispEffect l = some "") ∧
    (parseVMX "dir/guest.vmx" "numvcpus=2\n# a comment").1.DisplayName = "guest" ∧
    VMXDiag.displayNameFallback "guest" ∈ (parseVMX "dir/guest.vmx" "numvcpus=2\n# a comment").2 :=
  ⟨by decide,
    (c7_fallbackDisplayName "dir/guest.vmx" "numvcpus=2\n# a comment" (by decide)).1.trans
      (by decide),
    by
      have := (c7_fallbackDisplayName "dir/guest.vmx" "numvcpus=2\n# a comment" (by decide)).2
      rwa [show vmxFallbackName "dir/guest.vmx" = "guest" from by decide] at this⟩

/-- C9: a line that is blank, a `#` comment, has no `'='`, or carries an
unrecognized key is skipped with no effect at all on the state (fields and
diagnostics); the parse itself is total, so no line content is a fatal
error and the returned record is always fully populated. -/
theorem c9_skippableLineNoEffect (st : VMXConfig × List VMXDiag) (rawLine : String)
    (h : skippableVMXLine rawLine = true) :
    processVMXLine st rawLine = st := by
  unfold skippableVMXLine at h
  unfold processVMXLine lineKeyValue
  by_cases h1 : goTrimSpace rawLine = ""
  · rw [if_pos h1]
  · rw [if_neg h1] at h ⊢
    by_cases h2 : goStartsWith (goTrimSpace rawLine) "#" = true
    · rw [if_pos h2]
    · rw [if_neg h2] at h ⊢
      cases hs : splitAtEq (goTrimSpace rawLine).data with
      | none => rfl
      | some kv =>
        obtain ⟨k, v⟩ := kv
        rw [hs] at h
        dsimp only at h ⊢
        rw [Bool.not_eq_eq_eq_not, Bool.not_true] at h
        simp only [recognizedVMXKey, Bool.or_eq_false_iff, decide_eq_false_iff_not] at h
        rw [if_neg h.1.1, if_neg h.1.2, if_neg h.2]

theorem c9_skippableLineNoEffect_witness :
    skippableVMXLine "guestos = \"ubuntu-64\"" = true ∧
    processVMXLine (⟨"a", 2, 3⟩, []) "guestos = \"ubuntu-64\"" = (⟨"a", 2, 3⟩, []) :=
  ⟨by decide, c9_skippableLineNoEffect (⟨"a", 2, 3⟩, []) "guestos = \"ubuntu-64\"" (by decide)⟩

/-- C10: processing is in line order and each successful parse overwrites the
previous value, so the last successful occurrence determines each field: the
numeric fields equal the last successfully parsed occurrence (default 1 and
1024 when there is none), and a last non-empty `displayname` occurrence
becomes the display name. -/
theorem c10_lastOccurrenceWins (vmxPath content : String) :
    (parseVMX vmxPath content).1.NumVCPUs =
      (((splitLines content).filterMap numEffect).getLast?).getD 1 ∧
    (parseVMX vmxPath content).1.MemoryMiB =
      (((splitLines content).filterMap memEffect).getLast?).getD 1024 ∧
    ∀ v : String, v ≠ "" → ((splitLines content).filterMap dispEffect).getLast? = some v →
      (parseVMX vmxPath content).1.DisplayName = v :=
  ⟨parseVMX_NumVCPUi vmxPath content, parseVMX_MemoryMiB vmxPath content,
    fun v hv h0 => parseVMX_DisplayName_of_set vmxPath content v hv h0⟩

theorem c10_lastOccurrenceWins_witness :
    (parseVMX "a.vmx" "numvcpus=2\nnumvcpus=3\nmemsize=9\ndisplayName=x\ndisplayname=y").1.NumVCPUs
        = 3 ∧
    (parseVMX "a.vmx" "numvcpus=2\nnumvcpus=3\nmemsize=9\ndisplayName=x\ndisplayname=y").1.MemoryMiB
        = 9 ∧
    (parseVMX "a.vmx" "numvcpus=2\nnumvcpus=3\nmemsize=9\ndisplayName=x\ndisplayname=y").1.DisplayName
        = "y" :=
  ⟨(c10_lastOccurrenceWins "a.vmx"
      "numvcpus=2\nnumvcpus=3\nmemsize=9\ndisplayName=x\ndisplayname=y").1.trans (by decide),
    (c10_lastOccurrenceWins "a.vmx"
      "numvcpus=2\nnumvcpus=3\nmemsize=9\ndisplayName=x\ndisplayname=y").2.1.trans (by decide),
    (c10_lastOccurrenceWins "a.vmx"
      "numvcpus=2\nnumvcpus=3\nmemsize=9\ndisplayName=x\ndisplayname=y").2.2 "y" (by decide)
      (by decide)⟩

/-- C8 counterexample: the file `"numvcpus = foo\nnumvcpus = 5"` contains a
numeric key whose value `"foo"` fails numeric parsing, and the diagnostic is
emitted, yet the returned vCPU count is `5`, not the default `1`: a later
successfully parsed line overwrites the field, so the claim's "keeps the
default for that field" fails as stated. -/
theorem c8_counterexample :
    parseUint32 "foo" = none ∧
    badNumericDiag "numvcpus = foo" = some (VMXDiag.numvcpusUnparsable "foo") ∧
    VMXDiag.numvcpusUnparsable "foo" ∈ (parseVMX "vm.vmx" "numvcpus = foo\nnumvcpus = 5").2 ∧
    (parseVMX "vm.vmx" "numvcpus = foo\nnumvcpus = 5").1.NumVCPUs = 5 ∧
    (parseVMX "vm.vmx" "numvcpus = foo\nnumvcpus = 5").1.NumVCPUs ≠ 1 := by decide

/-- C8 (amended): a numeric-key line whose value fails numeric parsing leaves
every configuration field unchanged — so the default (1 vCPU, 1024 MiB) is
kept whenever no other line successfully sets the field — appends the
corresponding non-fatal diagnostic, and the parse still returns a record. -/
theorem c8_amended_unparsableLeavesFields (st : VMXConfig × List VMXDiag) (rawLine : String)
    (d : VMXDiag) (h : badNumericDiag rawLine = some d) :
    processVMXLine st rawLine = (st.1, st.2 ++ [d]) := by
  unfold badNumericDiag at h
  unfold processVMXLine
  cases hkv : lineKeyValue rawLine with
  | none =>
    rw [hkv] at h
    cases h
  | some kv =>
    obtain ⟨key, value⟩ := kv
    rw [hkv] at h
    dsimp only at h ⊢
    by_cases h2 : key = "numvcpus"
    · have h1 : ¬ key = "displayname" := by
        rw [h2]
        decide
      rw [if_pos h2] at h
      rw [if_neg h1, if_pos h2]
      cases hp : parseUint32 value with
      | none =>
        rw [hp] at h
        have hd : VMXDiag.numvcpusUnparsable value = d := Option.some.inj h
        rw [← hd]
      | some n =>
        rw [hp] at h
        exact absurd h (by simp)
    · rw [if_neg h2] at h
      by_cases h3 : key = "memsize"
      · have h1 : ¬ key = "displayname" := by
          rw [h3]
          decide
        rw [if_pos h3] at h
        rw [if_neg h1, if_neg h2, if_pos h3]
        cases hp : parseInt64 value with
        | none =>
          rw [hp] at h
          have hd : VMXDiag.memsizeUnparsable value = d := Option.some.inj h
          rw [← hd]
        | some n =>
          rw [hp] at h
          exact absurd h (by simp)
      · rw [if_neg h3] at h
        cases h

theorem c8_amended_unparsableLeavesFields_witness :
    badNumericDiag "numvcpus = foo" = some (VMXDiag.numvcpusUnparsable "foo") ∧
    processVMXLine (defaultVMXConfig, []) "numvcpus = foo" =
      (defaultVMXConfig, [VMXDiag.numvcpusUnparsable "foo"]) :=
  ⟨by decide,
    c8_amended_unparsableLeavesFields (defaultVMXConfig, []) "numvcpus = foo"
      (VMXDiag.numvcpusUnparsable "foo") (by decide)⟩

/-! Claim theorem C6, about `createKubeVirtVM`. -/

/-- C6: the resource name is derived by choosing the non-empty override if
given, else the display name, then lowercasing, replacing spaces and
underscores with hyphens, and truncating to 63 characters; an empty derived
name is an error with no resource, and otherwise the built resource carries
the derived name. -/
theorem c6_nameDerivation (cfg : VMXConfig) (pvcName vmNameOverride namespaceArg : String)
    (startVM : Bool) :
    (claimDerivedName cfg.DisplayName vmNameOverride = "" →
      createKubeVirtVM cfg pvcName vmNameOverride namespaceArg startVM = none) ∧
    (claimDerivedName cfg.DisplayName vmNameOverride ≠ "" →
      createKubeVirtVM cfg pvcName vmNameOverride namespaceArg startVM =
        some
          { name := claimDerivedName cfg.DisplayName vmNameOverride,
            vmNamespace := namespaceArg, running := startVM, cores := cfg.NumVCPUs,
            guestMemory := formatMemoryQuantity cfg.MemoryMiB,
            bootDiskClaimName := pvcName }) := by
  unfold createKubeVirtVM claimDerivedName
  dsimp only
  constructor
  · intro h
    rw [if_pos h]
  · intro h
    rw [if_neg h]

theorem c6_nameDerivation_witness :
    claimDerivedName "My VM_1" "" = "my-vm-1" ∧
    createKubeVirtVM ⟨"My VM_1", 2, 2048⟩ "pvc0" "" "default" false =
      some
        { name := claimDerivedName "My VM_1" "", vmNamespace := "default", running := false,
          cores := 2, guestMemory := formatMemoryQuantity 2048, bootDiskClaimName := "pvc0" } :=
  ⟨by decide,
    (c6_nameDerivation ⟨"My VM_1", 2, 2048⟩ "pvc0" "" "default" false).2 (by decide)⟩

end VMwareToKubevirt
